import Mathlib

/-!
# unvue: `lib/index.js`

A shallow embedding of the template splitter (`renderTemplate`), the streaming
page handler of `getRequestHandler`, the static generator's destination path
(`generate` / `handleUrl`) and the dev-mode compile listener (`handleCompiled`),
followed by the properties established about them.

JavaScript strings are modelled as lists of characters.  The render engine
(`vue-server-renderer`), `serialize-javascript` and `path.resolve` are external
to the file and enter the definitions as parameters.
-/

namespace Unvue

/-- JavaScript string, as its sequence of characters. -/
abbrev Str := List Char

/-! ## String primitives used by `renderTemplate` -/

/-- The character U+0060 (grave accent), `$` followed by it selects the text before the match. -/
def graveChar : Char := Char.ofNat 96

/-- The character U+0027 (apostrophe), `$` followed by it selects the text after the match. -/
def aposChar : Char := Char.ofNat 39

/-- JavaScript `String.prototype.indexOf(pat)`: the position of the first occurrence of `pat`. -/
def indexOf (pat : Str) : Str → Option Nat
  | [] => if pat.isPrefixOf [] then some 0 else none
  | c :: cs =>
    if pat.isPrefixOf (c :: cs) then some 0
    else (indexOf pat cs).map (· + 1)

/-- The loop of `String.prototype.split(sep)` for a non-empty separator: the
scan position advances one character at a time; at a position where `sep`
matches, the piece collected so far is emitted and the scan jumps past the
separator (`skip` counts the separator characters still to jump over). -/
def splitLoop (sep : Str) : Nat → Str → Str → List Str
  | _, acc, [] => [acc]
  | skip + 1, acc, _ :: cs => splitLoop sep skip acc cs
  | 0, acc, c :: cs =>
    if sep.isPrefixOf (c :: cs) then acc :: splitLoop sep (sep.length - 1) [] cs
    else splitLoop sep 0 (acc ++ [c]) cs

/-- JavaScript `String.prototype.split(sep)` with a string separator and no limit. -/
def split (s sep : Str) : List Str :=
  if sep = [] then s.map (fun c => [c]) else splitLoop sep 0 [] s

/-- ECMAScript `GetSubstitution` for a string pattern (no capture groups): in the
replacement text `$$` stands for `$`, `$&` for the matched text, `$` + grave
accent for the text before the match and `$'` for the text after it; every
other character, and a `$` followed by anything else, is copied. -/
def getSubstitution (matched str : Str) (position : Nat) : Str → Str
  | [] => []
  | [c] => [c]
  | c :: d :: rest =>
    if c = '$' then
      if d = '$' then '$' :: getSubstitution matched str position rest
      else if d = '&' then matched ++ getSubstitution matched str position rest
      else if d = graveChar then str.take position ++ getSubstitution matched str position rest
      else if d = aposChar then
        str.drop (position + matched.length) ++ getSubstitution matched str position rest
      else c :: getSubstitution matched str position (d :: rest)
    else c :: getSubstitution matched str position (d :: rest)

/-- JavaScript `String.prototype.replace(pat, repl)` with a string pattern and a string
replacement: only the first occurrence is replaced, by the substitution of
`repl`. -/
def replace (s pat repl : Str) : Str :=
  match indexOf pat s with
  | none => s
  | some pos => s.take pos ++ getSubstitution pat s pos repl ++ s.drop (pos + pat.length)

/-! ## `renderTemplate` -/

/-- The text of the fragments returned by `context.meta.inject()`. -/
structure MetaInfo where
  title : Str
  link : Str
  style : Str
  script : Str
  noscript : Str
  meta : Str
  deriving DecidableEq, Repr

/-- The render context as the render engine has populated it. `meta` and
`styles` may be missing on the object. -/
structure Context (σ : Type) where
  url : Str
  meta : Option MetaInfo
  styles : Option Str
  state : σ

/-- A thrown JavaScript exception; the code can only raise a `TypeError`, by
reading a property of `undefined`. -/
inductive JSError where
  | typeError
  deriving DecidableEq, Repr

/-- The object returned by `renderTemplate`. -/
structure Split where
  start : Str
  «end» : Str
  deriving DecidableEq, Repr

def appPlaceholder : Str := "<!--unvue-app-placeholder-->".toList
def headPlaceholder : Str := "<!--unvue-head-placeholder-->".toList
def stylesPlaceholder : Str := "<!--unvue-styles-placeholder-->".toList
def scriptOpen : Str := "<script>window.__INITIAL_STATE__=".toList
def scriptClose : Str := "</script>".toList

/-- The line break and six spaces that separate the fragments in the template
literal of `renderTemplate`. -/
def headSeparator : Str := "\n      ".toList

/-- The template literal that replaces the head marker. -/
def headText (m : MetaInfo) : Str :=
  m.meta ++ headSeparator ++ m.title ++ headSeparator ++ m.link ++ headSeparator ++
    m.style ++ headSeparator ++ m.script ++ headSeparator ++ m.noscript

/-- String concatenation with a possibly `undefined` right operand. -/
def plusUndefined (s : Str) : Option Str → Str
  | some e => s ++ e
  | none => s ++ "undefined".toList

/-- Function `renderTemplate(template, context)`. `serialize` is the call
`serialize(state, { isJSON: true })` of `serialize-javascript`. Reading
`context.meta.inject` throws when `context.meta` is missing. -/
def renderTemplate {σ : Type} (serialize : σ → Str) (template : Str) (context : Context σ) :
    Except JSError Split :=
  match context.meta with
  | none => .error .typeError
  | some m =>
    let pieces := split template appPlaceholder
    let start := pieces.headD []
    let «end» := pieces.tail.head?
    let start := replace (replace start headPlaceholder (headText m))
      stylesPlaceholder (context.styles.getD [])
    let «end» := plusUndefined (scriptOpen ++ serialize context.state ++ scriptClose) «end»
    .ok { start := start, «end» := «end» }

/-! ## The streaming page handler of `getRequestHandler` -/

/-- A value found in the `code` property of an error object. -/
inductive ErrCode where
  | number (n : Int)
  | string (s : Str)
  deriving DecidableEq, Repr

/-- An error object; `code` may be missing. -/
structure ErrorObject where
  code : Option ErrCode
  deriving DecidableEq, Repr

/-- A call that sends data on the response. -/
inductive ResCall where
  | write (chunk : Str)
  | «end» (chunk : Str)
  deriving DecidableEq, Repr

/-- The response object: the properties the handler assigns and the calls it
makes, in order. `statucCode` is the property the generic error path assigns. -/
structure Response where
  statusCode : Nat
  statucCode : Option Nat
  headers : List (Str × Str)
  calls : List ResCall
  deriving DecidableEq, Repr

/-- A response nothing has been sent on: Node's default status code is 200. -/
def Response.fresh : Response :=
  { statusCode := 200, statucCode := none, headers := [], calls := [] }

def Response.setHeader (res : Response) (name value : Str) : Response :=
  { res with headers := res.headers ++ [(name, value)] }

def Response.write (res : Response) (chunk : Str) : Response :=
  { res with calls := res.calls ++ [.write chunk] }

def Response.«end» (res : Response) (chunk : Str) : Response :=
  { res with calls := res.calls ++ [.«end» chunk] }

/-- The text carried by a call. -/
def ResCall.text : ResCall → Str
  | .write chunk => chunk
  | .«end» chunk => chunk

/-- The body sent: the text of all calls, in order. -/
def Response.body (res : Response) : Str :=
  (res.calls.map ResCall.text).flatten

/-- How many times `res.end` has been called. -/
def Response.endCount (res : Response) : Nat :=
  res.calls.countP (fun c => match c with
    | .«end» _ => true
    | .write _ => false)

/-- Function `errorHandler`: `err` is `none` for a `null` or `undefined` argument. The
console output of the generic branch is not modelled. -/
def errorHandler (res : Response) (err : Option ErrorObject) : Response :=
  match err with
  | some { code := some (.number 404) } =>
    { res with statusCode := 404 }.«end» "404 | Page Not Found".toList
  | _ =>
    { res with statucCode := some 500 }.«end» "500 | Internal Server Error".toList

/-- An event emitted by the stream that `renderer.renderToStream` returns. -/
inductive StreamEvent where
  | data (chunk : Str)
  | «end»
  | error (err : Option ErrorObject)
  deriving DecidableEq, Repr

/-- The variables of one request: the response, the closure variable
`splitedContent`, whether the `once('data')` listener is still registered, and
a count of the calls of `renderTemplate` made so far. -/
structure PageState where
  res : Response
  splitedContent : Option Split
  oncePending : Bool
  renderTemplateCalls : Nat
  deriving DecidableEq, Repr

/-- The listeners of one event, run in registration order: for `data` the
`once` listener (removed before it runs) and then the forwarding listener; an
exception thrown by a listener ends the emit. `template` is `this.template`,
`context` the render context. -/
def emit {σ : Type} (serialize : σ → Str) (template : Option Str) (context : Context σ)
    (st : PageState) : StreamEvent → PageState × Option JSError
  | .data chunk =>
    if st.oncePending then
      let st := { st with oncePending := false, renderTemplateCalls := st.renderTemplateCalls + 1 }
      match template with
      | none => (st, some .typeError)
      | some t =>
        match renderTemplate serialize t context with
        | .error e => (st, some e)
        | .ok splitedContent =>
          ({ st with splitedContent := some splitedContent,
                     res := (st.res.write splitedContent.start).write chunk }, none)
    else ({ st with res := st.res.write chunk }, none)
  | .«end» =>
    match st.splitedContent with
    | none => (st, some .typeError)
    | some splitedContent => ({ st with res := st.res.«end» splitedContent.«end» }, none)
  | .error err => ({ st with res := errorHandler st.res err }, none)

/-- The events of a render stream, handled one after the other until a
listener throws. -/
def emitAll {σ : Type} (serialize : σ → Str) (template : Option Str) (context : Context σ) :
    PageState → List StreamEvent → PageState × Option JSError
  | st, [] => (st, none)
  | st, ev :: evs =>
    match emit serialize template context st ev with
    | (st, none) => emitAll serialize template context st evs
    | (st, some e) => (st, some e)

/-- The arguments a bundle renderer was created from. -/
structure Renderer (β : Type) where
  bundle : β
  template : Option Str
  cacheMax : Nat
  cacheMaxAge : Nat
  deriving DecidableEq, Repr

/-- Function `createRenderer(bundle, template)`, as the record of what is passed to
`createBundleRenderer`. -/
def createRenderer {β : Type} (bundle : β) (template : Option Str) : Renderer β :=
  { bundle := bundle, template := template, cacheMax := 1000, cacheMaxAge := 1000 * 60 * 15 }

/-- The object `this.stats` of dev mode. -/
structure Stats (ς : Type) where
  server : Option ς
  client : Option ς
  deriving DecidableEq, Repr

/-- The fields of the `UNVUE` instance that the compile listeners and the
request handler use, and a count of the `ready` events emitted. -/
structure UNVUE (β ς : Type) where
  stats : Stats ς
  template : Option Str
  renderer : Option (Renderer β)
  readyEmitted : Nat
  deriving DecidableEq, Repr

/-- The handler of the route `*`, on a fresh response. `context` is the render
context as the render engine has populated it when the first chunk arrives and
`trace` the events of the render stream. -/
def pageRoute {σ β ς : Type} (serialize : σ → Str) (serverInfo : Str) (app : UNVUE β ς)
    (context : Context σ) (trace : List StreamEvent) : PageState × Option JSError :=
  match app.renderer with
  | none =>
    ({ res := Response.fresh.«end» "waiting for compilation... refresh in a moment.".toList,
       splitedContent := none, oncePending := false, renderTemplateCalls := 0 }, none)
  | some _ =>
    let res := (Response.fresh.setHeader "Content-Type".toList "text/html".toList).setHeader
      "Server".toList serverInfo
    emitAll serialize app.template context
      { res := res, splitedContent := none, oncePending := true, renderTemplateCalls := 0 } trace

/-! ## `generate` -/

/-- Function `handleUrl`: the regular expression `/\/$/` tests for a final `/`. -/
def handleUrl (url : Str) : Str :=
  if url.getLast? = some '/' then url ++ "index".toList else url

/-- The argument `generate` passes to `getCwd` for a route. -/
def pagePath (url : Str) : Str :=
  "dist".toList ++ handleUrl url ++ ".html".toList

/-- One route of `g`: render the page to a string, frame it with the split
template and name the file it is written to. `resolve` is `path.resolve`,
`renderToString` the render engine, which returns the body and the populated
context. The result is the file and the text passed to `fs.writeFile`. -/
def generatePage {σ : Type} (resolve : Str → Str → Str) (serialize : σ → Str)
    (renderToString : Str → Except JSError (Str × Context σ)) (cwd template url : Str) :
    Except JSError (Str × Str) :=
  match renderToString url with
  | .error e => .error e
  | .ok (main, context) =>
    match renderTemplate serialize template context with
    | .error e => .error e
    | .ok sp => .ok (resolve cwd (pagePath url), sp.start ++ main ++ sp.«end»)

/-! ## `handleCompiled` -/

/-- The payload of a `compiled:server` or `compiled:client` event. -/
structure Payload (β ς : Type) where
  stats : ς
  template : Str
  bundle : β

/-- Which compiler an event comes from. -/
inductive CompileType where
  | server
  | client
  deriving DecidableEq, Repr

/-- The assignment `this.stats[type] = stats`. -/
def Stats.set {ς : Type} (s : Stats ς) (type : CompileType) (stats : ς) : Stats ς :=
  match type with
  | .server => { s with server := some stats }
  | .client => { s with client := some stats }

/-- The listener `handleCompiled(type)` applied to a payload. -/
def handleCompiled {β ς : Type} (type : CompileType) (app : UNVUE β ς) (payload : Payload β ς) :
    UNVUE β ς :=
  let app := { app with stats := app.stats.set type payload.stats }
  let app := { app with template := some payload.template }
  let app :=
    match app.renderer with
    | none => { app with renderer := some (createRenderer payload.bundle none) }
    | some _ => app
  { app with readyEmitted := app.readyEmitted + 1 }

/-- The instance at the start of dev mode: `this.stats = {}`, no template and
no renderer. -/
def UNVUE.absent {β ς : Type} : UNVUE β ς :=
  { stats := { server := none, client := none }, template := none, renderer := none,
    readyEmitted := 0 }

/-- A sequence of compile events, handled in order. -/
def compileAll {β ς : Type} (app : UNVUE β ς) (events : List (CompileType × Payload β ς)) :
    UNVUE β ς :=
  events.foldl (fun app ev => handleCompiled ev.1 app ev.2) app

/-! ## Reference definitions for the statements -/

/-- The text with the first occurrence of `marker` replaced by exactly the
text `inserted`. -/
def replaceMarker (marker inserted : Str) : Str → Str
  | [] => []
  | c :: cs =>
    if marker.isPrefixOf (c :: cs) then inserted ++ (c :: cs).drop marker.length
    else c :: replaceMarker marker inserted cs

/-- The `start` fragment as the specification words it: the head marker
replaced by the concatenation of the six fragments, the styles marker by the
collected CSS or the empty string. -/
def specStart (pre : Str) (m : MetaInfo) (styles : Option Str) : Str :=
  replaceMarker stylesPlaceholder (styles.getD [])
    (replaceMarker headPlaceholder
      (m.meta ++ m.title ++ m.link ++ m.style ++ m.script ++ m.noscript) pre)

/-- Whether a character that follows a `$` in a replacement text makes the
pair a substitution pattern: `$$`, `$&`, `$` + grave accent, `$` + apostrophe. -/
def isDollarSpecial (d : Char) : Bool :=
  d == '$' || d == '&' || d == graveChar || d == aposChar

/-- Whether a text holds a substitution pattern: a `$` immediately followed
by `$`, `&`, a grave accent or an apostrophe. -/
def hasDollarPattern : Str → Bool
  | [] => false
  | [_] => false
  | c :: d :: rest => (c == '$' && isDollarSpecial d) || hasDollarPattern (d :: rest)

/-- Modelled from the spec: the escaping that `serialize-javascript` (a
dependency, absent from the sources) applies to every character that is unsafe
in an inline script: `<`, `>`, `/` and the line separators U+2028 and U+2029
are written as `\u` escapes. -/
def escapeUnsafeChar (c : Char) : Str :=
  if c = '<' then "\\u003C".toList
  else if c = '>' then "\\u003E".toList
  else if c = '/' then "\\u002F".toList
  else if c = Char.ofNat 0x2028 then "\\u2028".toList
  else if c = Char.ofNat 0x2029 then "\\u2029".toList
  else [c]

/-- Modelled from the spec: the call `serialize(state, options)` of
`serialize-javascript` with `isJSON` set, absent from the sources: the JSON
text of the state (`stringify`, any function) with the unsafe characters
escaped. -/
def serializeJSON {σ : Type} (stringify : σ → Str) (state : σ) : Str :=
  (stringify state).flatMap escapeUnsafeChar

/-! ## Concrete data for the examples -/

def demoMeta : MetaInfo :=
  { title := "T".toList, link := "L".toList, style := "S".toList, script := "C".toList,
    noscript := "N".toList, meta := "M".toList }

def demoContext : Context Str :=
  { url := "/".toList, meta := some demoMeta, styles := some "b".toList,
    state := "\"</script>\"".toList }

def demoPre : Str := "<i><!--unvue-head-placeholder--><!--unvue-styles-placeholder--></i>".toList

def demoPost : Str := "</b>".toList

def demoTemplate : Str := demoPre ++ (appPlaceholder ++ demoPost)

/-- A context whose fragments are empty and whose CSS is the text `$&`. -/
def dollarContext : Context Str :=
  { url := "/".toList,
    meta := some { title := [], link := [], style := [], script := [], noscript := [], meta := [] },
    styles := some "$&".toList, state := "0".toList }

/-- A context whose title and CSS hold a `$` that starts no substitution
pattern. -/
def cssDollarContext : Context Str :=
  { url := "/".toList, meta := some { demoMeta with title := "$5".toList },
    styles := some "a[href$=x]".toList, state := "0".toList }

/-- What `renderTemplate` returns on `demoTemplate` and `demoContext`. -/
def demoSplit : Split :=
  { start := "<i>M\n      T\n      L\n      S\n      C\n      Nb</i>".toList,
    «end» := "<script>window.__INITIAL_STATE__=\"</script>\"</script></b>".toList }

def demoApp : UNVUE Nat Unit :=
  { stats := { server := some (), client := none }, template := some demoTemplate,
    renderer := some (createRenderer 7 none), readyEmitted := 1 }

/-! # Theorems -/

/-! ## First occurrences -/

/-- A separator whose first character does not recur in it cannot overlap an
occurrence of itself: before the first occurrence no position matches. -/
theorem no_match_before {sep rest : Str} {c : Char} (hsep : sep = c :: rest) (hc : c ∉ rest)
    {pre : Str} (h : ¬ sep <:+: pre) (post s : Str) (hs : s ≠ []) (hsuf : s <:+ pre) :
    ¬ sep <+: s ++ (sep ++ post) := by
  intro hp
  have h1 : s <+: s ++ (sep ++ post) := List.prefix_append _ _
  rcases Nat.le_total sep.length s.length with hle | hle
  · exact h ((List.prefix_of_prefix_length_le hp h1 hle).isInfix.trans hsuf.isInfix)
  · obtain ⟨u, hu⟩ := List.prefix_of_prefix_length_le h1 hp hle
    have hp2 : s ++ u <+: s ++ (sep ++ post) := by rw [hu]; exact hp
    have hu2 : u <+: sep ++ post := (List.prefix_append_right_inj s).1 hp2
    cases u with
    | nil =>
      rw [List.append_nil] at hu
      exact h (hu ▸ hsuf.isInfix)
    | cons d u' =>
      cases s with
      | nil => exact hs rfl
      | cons a s' =>
        rw [hsep] at hu hu2
        simp only [List.cons_append, List.cons.injEq] at hu
        obtain ⟨w, hw⟩ := hu2
        simp only [List.cons_append, List.cons.injEq] at hw
        apply hc
        rw [← hu.2, ← hw.1]
        simp

theorem isPrefixOf_eq_false {a b : Str} (h : ¬ a <+: b) : a.isPrefixOf b = false := by
  rw [Bool.eq_false_iff]
  intro hb
  exact h (List.isPrefixOf_iff_prefix.1 hb)

theorem isPrefixOf_eq_true {a b : Str} (h : a <+: b) : a.isPrefixOf b = true :=
  List.isPrefixOf_iff_prefix.2 h

theorem splitLoop_zero_cons (sep acc : Str) (c : Char) (cs : Str) :
    splitLoop sep 0 acc (c :: cs) =
      if sep.isPrefixOf (c :: cs) then acc :: splitLoop sep (sep.length - 1) [] cs
      else splitLoop sep 0 (acc ++ [c]) cs := rfl

theorem splitLoop_succ_cons (sep acc : Str) (skip : Nat) (c : Char) (cs : Str) :
    splitLoop sep (skip + 1) acc (c :: cs) = splitLoop sep skip acc cs := rfl

/-- Characters to jump over are dropped without being examined. -/
theorem splitLoop_skip (sep acc : Str) (xs ys : Str) :
    splitLoop sep xs.length acc (xs ++ ys) = splitLoop sep 0 acc ys := by
  induction xs with
  | nil => rfl
  | cons x xs ih =>
    rw [List.length_cons, List.cons_append, splitLoop_succ_cons]
    exact ih

/-- A text in which the separator matches at no position is a single piece. -/
theorem splitLoop_no_match (sep : Str) (t acc : Str) (h : ¬ sep <:+: t) :
    splitLoop sep 0 acc t = [acc ++ t] := by
  induction t generalizing acc with
  | nil => simp [splitLoop]
  | cons x xs ih =>
    have hx : ¬ sep <+: x :: xs := fun hp => h hp.isInfix
    have hxs : ¬ sep <:+: xs := fun hi => h (hi.trans (List.suffix_cons x xs).isInfix)
    have hb : sep.isPrefixOf (x :: xs) = false := isPrefixOf_eq_false hx
    rw [splitLoop_zero_cons, hb, if_neg Bool.false_ne_true, ih _ hxs]
    simp

/-- The text up to the first occurrence of the separator is the first piece. -/
theorem splitLoop_first (sep : Str) (hne : sep ≠ []) (post : Str) (pre acc : Str)
    (h : ∀ s, s ≠ [] → s <:+ pre → ¬ sep <+: s ++ (sep ++ post)) :
    splitLoop sep 0 acc (pre ++ (sep ++ post)) = (acc ++ pre) :: splitLoop sep 0 [] post := by
  induction pre generalizing acc with
  | nil =>
    cases sep with
    | nil => exact absurd rfl hne
    | cons c rest =>
      have hb : (c :: rest).isPrefixOf (c :: (rest ++ post)) = true :=
        isPrefixOf_eq_true (List.prefix_append (c :: rest) post)
      rw [List.nil_append, List.cons_append, splitLoop_zero_cons, hb, if_pos rfl,
        List.length_cons, Nat.add_sub_cancel, splitLoop_skip, List.append_nil]
  | cons x xs ih =>
    have hx : ¬ sep <+: (x :: xs) ++ (sep ++ post) :=
      h (x :: xs) (List.cons_ne_nil _ _) (List.suffix_refl _)
    have hb : sep.isPrefixOf (x :: (xs ++ (sep ++ post))) = false := isPrefixOf_eq_false hx
    have hxs : ∀ s, s ≠ [] → s <:+ xs → ¬ sep <+: s ++ (sep ++ post) :=
      fun s hs hsuf => h s hs (hsuf.trans (List.suffix_cons x xs))
    rw [List.cons_append, splitLoop_zero_cons, hb, if_neg Bool.false_ne_true, ih _ hxs]
    simp

theorem indexOf_no_match (pat : Str) (t : Str) (h : ¬ pat <:+: t) : indexOf pat t = none := by
  induction t with
  | nil =>
    have hb : pat.isPrefixOf [] = false := isPrefixOf_eq_false (fun hp => h hp.isInfix)
    simp [indexOf, hb]
  | cons x xs ih =>
    have hx : ¬ pat <+: x :: xs := fun hp => h hp.isInfix
    have hxs : ¬ pat <:+: xs := fun hi => h (hi.trans (List.suffix_cons x xs).isInfix)
    have hb : pat.isPrefixOf (x :: xs) = false := isPrefixOf_eq_false hx
    simp [indexOf, hb, ih hxs]

theorem indexOf_first (pat : Str) (post : Str) (pre : Str)
    (h : ∀ s, s ≠ [] → s <:+ pre → ¬ pat <+: s ++ (pat ++ post)) :
    indexOf pat (pre ++ (pat ++ post)) = some pre.length := by
  induction pre with
  | nil =>
    have hb : pat.isPrefixOf (pat ++ post) = true :=
      isPrefixOf_eq_true (List.prefix_append pat post)
    cases hp : pat ++ post with
    | nil => rw [hp] at hb; simp [indexOf, hb]
    | cons y ys => rw [hp] at hb; simp [indexOf, hb]
  | cons x xs ih =>
    have hx : ¬ pat <+: (x :: xs) ++ (pat ++ post) :=
      h (x :: xs) (List.cons_ne_nil _ _) (List.suffix_refl _)
    have hb : pat.isPrefixOf (x :: (xs ++ (pat ++ post))) = false := isPrefixOf_eq_false hx
    have hxs : ∀ s, s ≠ [] → s <:+ xs → ¬ pat <+: s ++ (pat ++ post) :=
      fun s hs hsuf => h s hs (hsuf.trans (List.suffix_cons x xs))
    simp [indexOf, hb, ih hxs]

theorem hasDollarPattern_cons_cons (c d : Char) (rest : Str) :
    hasDollarPattern (c :: d :: rest) =
      ((c == '$' && isDollarSpecial d) || hasDollarPattern (d :: rest)) := rfl

/-- A replacement text without substitution pattern is inserted as it is: a
`$` followed by any other character, or at the end, is copied. -/
theorem getSubstitution_plain (matched str : Str) (position : Nat) (repl : Str)
    (h : hasDollarPattern repl = false) : getSubstitution matched str position repl = repl := by
  induction repl with
  | nil => rfl
  | cons c tl ih =>
    cases tl with
    | nil => rfl
    | cons d rest =>
      rw [hasDollarPattern_cons_cons, Bool.or_eq_false_iff] at h
      obtain ⟨hpair, htl⟩ := h
      by_cases hc : c = '$'
      · subst hc
        simp only [beq_self_eq_true, Bool.true_and, isDollarSpecial, Bool.or_eq_false_iff,
          beq_eq_false_iff_ne, ne_eq] at hpair
        obtain ⟨⟨⟨h1, h2⟩, h3⟩, h4⟩ := hpair
        simp only [getSubstitution, if_true, h1, h2, h3, h4, if_false]
        rw [ih htl]
      · simp only [getSubstitution, hc, if_false]
        rw [ih htl]

/-- Two texts without substitution pattern, joined where the first does not
end in `$` or the second does not start with a pattern character, have none. -/
theorem hasDollarPattern_append (a b : Str) (ha : hasDollarPattern a = false)
    (hb : hasDollarPattern b = false)
    (hjoin : a.getLast? ≠ some '$' ∨ ∀ d, b.head? = some d → isDollarSpecial d = false) :
    hasDollarPattern (a ++ b) = false := by
  induction a with
  | nil => exact hb
  | cons c tl ih =>
    cases tl with
    | nil =>
      cases b with
      | nil => rfl
      | cons d rest =>
        rw [List.singleton_append, hasDollarPattern_cons_cons, Bool.or_eq_false_iff]
        refine ⟨?_, hb⟩
        rcases hjoin with hl | hh
        · have hc : c ≠ '$' := fun e => hl (by simp [e])
          simp [hc]
        · simp [hh d rfl]
    | cons d rest =>
      rw [hasDollarPattern_cons_cons, Bool.or_eq_false_iff] at ha
      rw [List.cons_append, List.cons_append, hasDollarPattern_cons_cons, Bool.or_eq_false_iff]
      refine ⟨ha.1, ?_⟩
      rw [← List.cons_append]
      refine ih ha.2 ?_
      rcases hjoin with hl | hh
      · left
        simpa [List.getLast?_cons_cons] using hl
      · exact Or.inr hh

/-- A fragment appended after the separator of the head text adds no
substitution pattern. -/
theorem hasDollarPattern_headSeparator (a f : Str) (ha : hasDollarPattern a = false)
    (hf : hasDollarPattern f = false) :
    hasDollarPattern (a ++ headSeparator ++ f) = false := by
  have h1 : hasDollarPattern (a ++ headSeparator) = false :=
    hasDollarPattern_append a headSeparator ha (by decide)
      (Or.inr (fun d hd => by
        have : d = '\n' := by
          have h0 : headSeparator.head? = some '\n' := by decide
          rw [h0] at hd
          exact (Option.some.inj hd).symm
        subst this
        decide))
  refine hasDollarPattern_append _ f h1 hf (Or.inl ?_)
  have h2 : (a ++ headSeparator).getLast? = some ' ' := by
    rw [List.getLast?_append]
    have h0 : headSeparator.getLast? = some ' ' := by decide
    rw [h0]
    rfl
  rw [h2]
  decide

/-- The head text has no substitution pattern when none of the six fragments
has one. -/
theorem hasDollarPattern_headText (m : MetaInfo)
    (h : ∀ f ∈ [m.meta, m.title, m.link, m.style, m.script, m.noscript],
      hasDollarPattern f = false) :
    hasDollarPattern (headText m) = false := by
  simp only [List.mem_cons, List.mem_singleton, forall_eq_or_imp, forall_eq,
    List.not_mem_nil, false_implies, implies_true, and_true] at h
  obtain ⟨h1, h2, h3, h4, h5, h6⟩ := h
  unfold headText
  exact hasDollarPattern_headSeparator _ _ (hasDollarPattern_headSeparator _ _
    (hasDollarPattern_headSeparator _ _ (hasDollarPattern_headSeparator _ _
      (hasDollarPattern_headSeparator _ _ h1 h2) h3) h4) h5) h6

theorem replace_no_match (s pat repl : Str) (h : ¬ pat <:+: s) : replace s pat repl = s := by
  simp [replace, indexOf_no_match pat s h]

theorem replace_first (pat repl : Str) (pre post : Str) (hd : hasDollarPattern repl = false)
    (h : ∀ s, s ≠ [] → s <:+ pre → ¬ pat <+: s ++ (pat ++ post)) :
    replace (pre ++ (pat ++ post)) pat repl = pre ++ (repl ++ post) := by
  simp [replace, indexOf_first pat post pre h, getSubstitution_plain _ _ _ _ hd]

/-! ## Properties of `renderTemplate` -/

theorem appPlaceholder_shape :
    appPlaceholder = '<' :: appPlaceholder.tail ∧ '<' ∉ appPlaceholder.tail := by decide

theorem headPlaceholder_shape :
    headPlaceholder = '<' :: headPlaceholder.tail ∧ '<' ∉ headPlaceholder.tail := by decide

theorem stylesPlaceholder_shape :
    stylesPlaceholder = '<' :: stylesPlaceholder.tail ∧ '<' ∉ stylesPlaceholder.tail := by decide

theorem scriptClose_shape :
    scriptClose = '<' :: scriptClose.tail ∧ '<' ∉ scriptClose.tail := by decide

theorem scriptOpen_shape :
    scriptOpen = '<' :: scriptOpen.tail ∧ '<' ∉ scriptOpen.tail := by decide

/-- The pieces of a template whose first body marker follows `pre`. -/
theorem split_first (pre post : Str) (hpre : ¬ appPlaceholder <:+: pre) :
    split (pre ++ (appPlaceholder ++ post)) appPlaceholder =
      pre :: splitLoop appPlaceholder 0 [] post := by
  have hne : appPlaceholder ≠ [] := by decide
  have h := splitLoop_first appPlaceholder hne post pre []
    (no_match_before appPlaceholder_shape.1 appPlaceholder_shape.2 hpre post)
  rw [split, if_neg hne, h, List.nil_append]

/-- The pieces of a template with exactly one body marker. -/
theorem split_once (pre post : Str) (hpre : ¬ appPlaceholder <:+: pre)
    (hpost : ¬ appPlaceholder <:+: post) :
    split (pre ++ (appPlaceholder ++ post)) appPlaceholder = [pre, post] := by
  rw [split_first pre post hpre, splitLoop_no_match appPlaceholder post [] hpost, List.nil_append]

/-- The pieces of a template without body marker. -/
theorem split_none (template : Str) (h : ¬ appPlaceholder <:+: template) :
    split template appPlaceholder = [template] := by
  have hne : appPlaceholder ≠ [] := by decide
  rw [split, if_neg hne, splitLoop_no_match appPlaceholder template [] h, List.nil_append]

/-- What `renderTemplate` returns on a template with exactly one body marker. -/
theorem renderTemplate_once {σ : Type} (serialize : σ → Str) (pre post : Str)
    (context : Context σ) (m : MetaInfo) (hm : context.meta = some m)
    (hpre : ¬ appPlaceholder <:+: pre) (hpost : ¬ appPlaceholder <:+: post) :
    renderTemplate serialize (pre ++ (appPlaceholder ++ post)) context =
      .ok { start := replace (replace pre headPlaceholder (headText m)) stylesPlaceholder
              (context.styles.getD []),
            «end» := scriptOpen ++ serialize context.state ++ scriptClose ++ post } := by
  simp only [renderTemplate, hm, split_once pre post hpre hpost, List.headD_cons,
    List.tail_cons, List.head?_cons, plusUndefined]

/-- With a replacement text free of substitution patterns, `replace` puts the
text in place of the first occurrence of the pattern. -/
theorem replace_eq_replaceMarker (pat repl : Str) (hd : hasDollarPattern repl = false)
    (hne : pat ≠ []) (s : Str) :
    replace s pat repl = replaceMarker pat repl s := by
  induction s with
  | nil =>
    have hb : pat.isPrefixOf [] = false :=
      isPrefixOf_eq_false (fun hp => hne (List.prefix_nil.1 hp))
    simp [replace, indexOf, hb, replaceMarker]
  | cons x xs ih =>
    by_cases hb : pat.isPrefixOf (x :: xs) = true
    · simp [replace, indexOf, hb, replaceMarker, getSubstitution_plain _ _ _ _ hd]
    · have hb2 : pat.isPrefixOf (x :: xs) = false := Bool.eq_false_iff.2 hb
      simp only [replace, indexOf, hb2, replaceMarker, Bool.false_eq_true, if_false]
      simp only [replace] at ih
      rw [← ih]
      cases hi : indexOf pat xs with
      | none => simp
      | some p =>
        simp [getSubstitution_plain _ _ _ _ hd, Nat.add_right_comm p 1 pat.length]

/-- C5: on a template `pre ++ marker ++ post` that contains the body marker
exactly once, and a context whose `meta` is populated, `renderTemplate` returns
a pair whose `end` is the hydration script followed by `post` verbatim and
whose `start` is computed from `pre` and the context alone (the same for every
`post`), equal to `pre` when `pre` holds neither the head nor the styles
marker; `start ++ body ++ end` is `start`, then `body` and the hydration
script, then `post`. -/
theorem renderTemplate_splits_at_marker {σ : Type} (serialize : σ → Str) (pre post : Str)
    (context : Context σ) (m : MetaInfo) (hm : context.meta = some m)
    (hpre : ¬ appPlaceholder <:+: pre) (hpost : ¬ appPlaceholder <:+: post) :
    ∃ sp, renderTemplate serialize (pre ++ (appPlaceholder ++ post)) context = .ok sp ∧
      sp.«end» = scriptOpen ++ serialize context.state ++ scriptClose ++ post ∧
      sp.start = replace (replace pre headPlaceholder (headText m)) stylesPlaceholder
        (context.styles.getD []) ∧
      (∀ post2 : Str, ¬ appPlaceholder <:+: post2 →
        ∃ sp2, renderTemplate serialize (pre ++ (appPlaceholder ++ post2)) context = .ok sp2 ∧
          sp2.start = sp.start) ∧
      (¬ headPlaceholder <:+: pre → ¬ stylesPlaceholder <:+: pre → sp.start = pre) ∧
      (∀ body : Str, sp.start ++ body ++ sp.«end» =
        sp.start ++ (body ++ (scriptOpen ++ serialize context.state ++ scriptClose)) ++ post) := by
  refine ⟨_, renderTemplate_once serialize pre post context m hm hpre hpost, rfl, rfl, ?_, ?_, ?_⟩
  · intro post2 hpost2
    exact ⟨_, renderTemplate_once serialize pre post2 context m hm hpre hpost2, rfl⟩
  · intro hh hs
    show replace (replace pre headPlaceholder (headText m)) stylesPlaceholder
        (context.styles.getD []) = _
    rw [replace_no_match pre headPlaceholder _ hh, replace_no_match pre stylesPlaceholder _ hs]
  · intro body
    simp [List.append_assoc]

/-- C5, at a concrete template and context. -/
theorem renderTemplate_splits_at_marker_witness :
    demoContext.meta = some demoMeta ∧ ¬ appPlaceholder <:+: demoPre ∧
    ¬ appPlaceholder <:+: demoPost ∧
    ∃ sp, renderTemplate id (demoPre ++ (appPlaceholder ++ demoPost)) demoContext = .ok sp ∧
      sp.«end» = scriptOpen ++ id demoContext.state ++ scriptClose ++ demoPost ∧
      sp.start = replace (replace demoPre headPlaceholder (headText demoMeta)) stylesPlaceholder
        (demoContext.styles.getD []) ∧
      (∀ post2 : Str, ¬ appPlaceholder <:+: post2 →
        ∃ sp2, renderTemplate id (demoPre ++ (appPlaceholder ++ post2)) demoContext = .ok sp2 ∧
          sp2.start = sp.start) ∧
      (¬ headPlaceholder <:+: demoPre → ¬ stylesPlaceholder <:+: demoPre → sp.start = demoPre) ∧
      (∀ body : Str, sp.start ++ body ++ sp.«end» =
        sp.start ++ (body ++ (scriptOpen ++ id demoContext.state ++ scriptClose)) ++ demoPost) :=
  ⟨rfl, by decide, by decide,
    renderTemplate_splits_at_marker id demoPre demoPost demoContext demoMeta rfl
      (by decide) (by decide)⟩

/-- C6, as stated, fails: with the fragments `M`, `T`, `L`, `S`, `C`, `N` the
head marker is replaced by the fragments separated by a line break and six
spaces, not by their concatenation; and with the CSS text `$&` the styles
marker is replaced by the marker itself, not by the text `$&`. -/
theorem renderTemplate_start_not_plain_insertion :
    renderTemplate id (demoPre ++ (appPlaceholder ++ demoPost)) demoContext =
      .ok { start := "<i>M\n      T\n      L\n      S\n      C\n      Nb</i>".toList,
            «end» := "<script>window.__INITIAL_STATE__=\"</script>\"</script></b>".toList } ∧
    specStart demoPre demoMeta (some "b".toList) = "<i>MTLSCNb</i>".toList ∧
    "<i>M\n      T\n      L\n      S\n      C\n      Nb</i>".toList ≠ "<i>MTLSCNb</i>".toList ∧
    renderTemplate id (stylesPlaceholder ++ (appPlaceholder ++ demoPost)) dollarContext =
      .ok { start := stylesPlaceholder,
            «end» := "<script>window.__INITIAL_STATE__=0</script></b>".toList } ∧
    specStart stylesPlaceholder
      { title := [], link := [], style := [], script := [], noscript := [], meta := [] }
      (some "$&".toList) = "$&".toList ∧
    stylesPlaceholder ≠ "$&".toList := by
  refine ⟨by rfl, by decide, by decide, by rfl, by decide, by decide⟩

/-- C6, amended: when `pre` is the text before the first body marker and none
of the six fragments nor the CSS contains a `$` immediately followed by `$`,
`&`, a grave accent or an apostrophe, the returned `start` is `pre`
with the first head marker replaced by the fragments in the order meta, title,
link, style, script, noscript, separated by a line break and six spaces, and
then the first styles marker replaced by the CSS (the empty text when absent);
a `pre` without the two markers is returned unchanged, and in
`a ++ head marker ++ b ++ styles marker ++ c` the texts `a`, `b`, `c` are
kept as they are. -/
theorem renderTemplate_start_replaces {σ : Type} (serialize : σ → Str) (pre post : Str)
    (context : Context σ) (m : MetaInfo) (hm : context.meta = some m)
    (hpre : ¬ appPlaceholder <:+: pre)
    (hfrag : ∀ f ∈ [m.meta, m.title, m.link, m.style, m.script, m.noscript],
      hasDollarPattern f = false)
    (hcss : hasDollarPattern (context.styles.getD []) = false) :
    ∃ sp, renderTemplate serialize (pre ++ (appPlaceholder ++ post)) context = .ok sp ∧
      sp.start = replaceMarker stylesPlaceholder (context.styles.getD [])
        (replaceMarker headPlaceholder (headText m) pre) ∧
      (¬ headPlaceholder <:+: pre → ¬ stylesPlaceholder <:+: pre → sp.start = pre) ∧
      (∀ a b c : Str, pre = a ++ (headPlaceholder ++ (b ++ (stylesPlaceholder ++ c))) →
        ¬ headPlaceholder <:+: a → ¬ stylesPlaceholder <:+: a ++ (headText m ++ b) →
        sp.start = a ++ (headText m ++ (b ++ (context.styles.getD [] ++ c)))) := by
  have hhead : hasDollarPattern (headText m) = false := hasDollarPattern_headText m hfrag
  refine ⟨{ start := replace (replace pre headPlaceholder (headText m)) stylesPlaceholder
              (context.styles.getD []),
            «end» := plusUndefined (scriptOpen ++ serialize context.state ++ scriptClose)
              (splitLoop appPlaceholder 0 [] post).head? }, ?_, ?_, ?_, ?_⟩
  · simp only [renderTemplate, hm, split_first pre post hpre, List.headD_cons, List.tail_cons]
  · show replace (replace pre headPlaceholder (headText m)) stylesPlaceholder
        (context.styles.getD []) = _
    rw [replace_eq_replaceMarker headPlaceholder _ hhead (by decide),
      replace_eq_replaceMarker stylesPlaceholder _ hcss (by decide)]
  · intro hh hs
    show replace (replace pre headPlaceholder (headText m)) stylesPlaceholder
        (context.styles.getD []) = _
    rw [replace_no_match pre headPlaceholder _ hh, replace_no_match pre stylesPlaceholder _ hs]
  · intro a b c hpre2 hh hs
    show replace (replace pre headPlaceholder (headText m)) stylesPlaceholder
        (context.styles.getD []) = _
    rw [hpre2, replace_first headPlaceholder (headText m) a _ hhead
      (no_match_before headPlaceholder_shape.1 headPlaceholder_shape.2 hh _)]
    have e : a ++ (headText m ++ (b ++ (stylesPlaceholder ++ c))) =
        (a ++ (headText m ++ b)) ++ (stylesPlaceholder ++ c) := by simp [List.append_assoc]
    rw [e, replace_first stylesPlaceholder (context.styles.getD []) _ c hcss
      (no_match_before stylesPlaceholder_shape.1 stylesPlaceholder_shape.2 hs _)]
    simp [List.append_assoc]

/-- C6 amended, at a template `<i>head marker, styles marker</i>` and a
context whose title is `$5` and whose CSS is `a[href$=x]`: the markers are
replaced by these texts as they are, and `<i>`, `</i>` are kept. -/
theorem renderTemplate_start_replaces_witness :
    cssDollarContext.meta = some { demoMeta with title := "$5".toList } ∧
    ¬ appPlaceholder <:+: demoPre ∧
    (∀ f ∈ ["M".toList, "$5".toList, "L".toList, "S".toList, "C".toList, "N".toList],
      hasDollarPattern f = false) ∧
    hasDollarPattern (cssDollarContext.styles.getD []) = false ∧
    ∃ sp, renderTemplate id (demoPre ++ (appPlaceholder ++ demoPost)) cssDollarContext = .ok sp ∧
      sp.start =
        "<i>M\n      $5\n      L\n      S\n      C\n      Na[href$=x]</i>".toList := by
  refine ⟨rfl, by decide, by decide, by decide, ?_⟩
  obtain ⟨sp, hsp, hstart, -, -⟩ :=
    renderTemplate_start_replaces id demoPre demoPost cssDollarContext
      { demoMeta with title := "$5".toList } rfl (by decide) (by decide) (by decide)
  refine ⟨sp, hsp, ?_⟩
  rw [hstart]
  decide

/-- C7, as stated, fails: on the template `<p></p>`, which has no body marker,
`renderTemplate` returns a pair and no error. -/
theorem renderTemplate_no_marker_returns :
    ¬ appPlaceholder <:+: "<p></p>".toList ∧
    renderTemplate id "<p></p>".toList demoContext =
      .ok { start := "<p></p>".toList,
            «end» := "<script>window.__INITIAL_STATE__=\"</script>\"</script>undefined".toList } ∧
    ¬ ∃ e, renderTemplate id "<p></p>".toList demoContext = .error e := by
  have h : renderTemplate id "<p></p>".toList demoContext =
      .ok { start := "<p></p>".toList,
            «end» :=
              "<script>window.__INITIAL_STATE__=\"</script>\"</script>undefined".toList } := by
    rfl
  refine ⟨by decide, h, ?_⟩
  rintro ⟨e, he⟩
  rw [h] at he
  cases he

/-- C7, amended: on a template without body marker and a context whose `meta`
is populated, `renderTemplate` returns a pair: `start` is the whole template
with the head and styles markers replaced, `end` is the hydration script
followed by the text `undefined`. -/
theorem renderTemplate_without_marker {σ : Type} (serialize : σ → Str) (template : Str)
    (context : Context σ) (m : MetaInfo) (hm : context.meta = some m)
    (h : ¬ appPlaceholder <:+: template) :
    renderTemplate serialize template context =
      .ok { start := replace (replace template headPlaceholder (headText m)) stylesPlaceholder
              (context.styles.getD []),
            «end» := scriptOpen ++ serialize context.state ++ scriptClose ++
              "undefined".toList } := by
  simp only [renderTemplate, hm, split_none template h, List.headD_cons,
      List.tail_cons, List.head?_nil, plusUndefined]

/-- C7 amended, at the template `<p></p>`. -/
theorem renderTemplate_without_marker_witness :
    demoContext.meta = some demoMeta ∧ ¬ appPlaceholder <:+: "<p></p>".toList ∧
    renderTemplate id "<p></p>".toList demoContext =
      .ok { start := replace (replace "<p></p>".toList headPlaceholder (headText demoMeta))
              stylesPlaceholder (demoContext.styles.getD []),
            «end» := scriptOpen ++ id demoContext.state ++ scriptClose ++ "undefined".toList } :=
  ⟨rfl, by decide,
    renderTemplate_without_marker id "<p></p>".toList demoContext demoMeta rfl (by decide)⟩

/-! ## The hydration script -/

theorem lt_not_mem_escapeUnsafeChar (c : Char) : '<' ∉ escapeUnsafeChar c := by
  unfold escapeUnsafeChar
  split_ifs with h1 h2 h3 h4 h5
  · decide
  · decide
  · decide
  · decide
  · decide
  · simp only [List.mem_singleton]
    exact fun e => h1 e.symm

theorem lt_not_mem_serializeJSON {σ : Type} (stringify : σ → Str) (state : σ) :
    '<' ∉ serializeJSON stringify state := by
  simp only [serializeJSON, List.mem_flatMap, not_exists, not_and]
  exact fun c _ => lt_not_mem_escapeUnsafeChar c

/-- An occurrence of a pattern cannot start in a text that lacks the
pattern's first character. -/
theorem infix_of_first_not_mem {pat rest : Str} {c : Char} (hpat : pat = c :: rest)
    (a b : Str) (hc : c ∉ a) (h : pat <:+: a ++ b) : pat <:+: b := by
  induction a with
  | nil => simpa using h
  | cons x xs ih =>
    rw [List.cons_append, List.infix_cons_iff] at h
    rcases h with hp | hi
    · exfalso
      rw [hpat] at hp
      obtain ⟨w, hw⟩ := hp
      simp only [List.cons_append, List.cons.injEq] at hw
      exact hc (by simp [hw.1])
    · exact ih (fun e => hc (List.mem_cons_of_mem _ e)) hi

/-- Where no earlier position matches, an occurrence lies at or after the end
of the first part. -/
theorem occurrence_not_before (pat tail a : Str)
    (h : ∀ s, s ≠ [] → s <:+ a → ¬ pat <+: s ++ tail) (u v : Str)
    (e : a ++ tail = u ++ (pat ++ v)) : a.length ≤ u.length := by
  rcases List.append_eq_append_iff.1 e with ⟨a', hu, _⟩ | ⟨s, ha, hs⟩
  · rw [hu]; simp
  · by_cases hnil : s = []
    · subst hnil
      rw [ha]; simp
    · exfalso
      refine h s hnil ⟨u, ha.symm⟩ ?_
      rw [← hs]
      exact List.prefix_append _ _

/-- A text that starts with a pattern and has no occurrence of it further on
contains it only at the start. -/
theorem only_at_start {pat rest : Str} {c : Char} (hpat : pat = c :: rest) (hc : c ∉ rest)
    (x : Str) (hx : ¬ pat <:+: x) (u v : Str) (e : pat ++ x = u ++ (pat ++ v)) : u = [] := by
  subst hpat
  cases u with
  | nil => rfl
  | cons y u' =>
    exfalso
    simp only [List.cons_append, List.cons.injEq] at e
    apply hx
    refine infix_of_first_not_mem rfl rest x hc ⟨u', v, ?_⟩
    rw [e.2]
    simp

/-- C8: with `serialize` modelled as the JSON text with `<`, `>`, `/` and the
line separators escaped, the payload that `renderTemplate` places between
the script opener and `</script>` in `end` contains no `</script>`, for every
state and every JSON text of it; so the first `</script>` after the opener is
the script's own closing tag, and when the rest of the template has no
hydration opener, `end` contains the opener once, at its start. -/
theorem renderTemplate_hydration_safe {σ : Type} (stringify : σ → Str) (pre post : Str)
    (context : Context σ) (m : MetaInfo) (hm : context.meta = some m)
    (hpre : ¬ appPlaceholder <:+: pre) (hpost : ¬ appPlaceholder <:+: post) :
    ∃ sp, renderTemplate (serializeJSON stringify) (pre ++ (appPlaceholder ++ post)) context =
        .ok sp ∧
      sp.«end» = scriptOpen ++ (serializeJSON stringify context.state ++ (scriptClose ++ post)) ∧
      ¬ scriptClose <:+: serializeJSON stringify context.state ∧
      (∀ u v : Str,
        serializeJSON stringify context.state ++ (scriptClose ++ post) = u ++ (scriptClose ++ v) →
        (serializeJSON stringify context.state).length ≤ u.length) ∧
      (¬ scriptOpen <:+: post → ∀ u v : Str, sp.«end» = u ++ (scriptOpen ++ v) → u = []) := by
  have hlt := lt_not_mem_serializeJSON stringify context.state
  have hclose : ¬ scriptClose <:+: serializeJSON stringify context.state := by
    intro hi
    apply hlt
    apply hi.subset
    rw [scriptClose_shape.1]
    simp
  refine ⟨_, renderTemplate_once (serializeJSON stringify) pre post context m hm hpre hpost, ?_,
    hclose, ?_, ?_⟩
  · simp [List.append_assoc]
  · intro u v e
    exact occurrence_not_before scriptClose (scriptClose ++ post) _
      (no_match_before scriptClose_shape.1 scriptClose_shape.2 hclose post) u v e
  · intro hopen u v e
    have e2 : scriptOpen ++ (serializeJSON stringify context.state ++ (scriptClose ++ post)) =
        u ++ (scriptOpen ++ v) := Eq.trans (by simp [List.append_assoc]) e
    refine only_at_start scriptOpen_shape.1 scriptOpen_shape.2
      (serializeJSON stringify context.state ++ (scriptClose ++ post)) ?_ u v e2
    intro h1
    have h2 : scriptOpen <:+: scriptClose ++ post :=
      infix_of_first_not_mem scriptOpen_shape.1 _ _ hlt h1
    rw [scriptClose_shape.1, List.cons_append, List.infix_cons_iff] at h2
    rcases h2 with hp | hi
    · obtain ⟨w, hw⟩ := hp
      have := congrArg (fun l => l.take 2) hw
      revert this
      simp [scriptOpen, scriptClose]
    · exact hopen (infix_of_first_not_mem scriptOpen_shape.1 _ _ scriptClose_shape.2 hi)

/-- C8, at a state whose JSON text contains `</script>`. -/
theorem renderTemplate_hydration_safe_witness :
    demoContext.meta = some demoMeta ∧ ¬ appPlaceholder <:+: demoPre ∧
    ¬ appPlaceholder <:+: demoPost ∧ scriptClose <:+: demoContext.state ∧
    ∃ sp, renderTemplate (serializeJSON id) (demoPre ++ (appPlaceholder ++ demoPost))
        demoContext = .ok sp ∧
      sp.«end» = scriptOpen ++ (serializeJSON id demoContext.state ++ (scriptClose ++ demoPost)) ∧
      ¬ scriptClose <:+: serializeJSON id demoContext.state ∧
      (∀ u v : Str,
        serializeJSON id demoContext.state ++ (scriptClose ++ demoPost) =
          u ++ (scriptClose ++ v) →
        (serializeJSON id demoContext.state).length ≤ u.length) ∧
      (¬ scriptOpen <:+: demoPost → ∀ u v : Str, sp.«end» = u ++ (scriptOpen ++ v) → u = []) :=
  ⟨rfl, by decide, by decide, by decide,
    renderTemplate_hydration_safe id demoPre demoPost demoContext demoMeta rfl
      (by decide) (by decide)⟩

/-! ## Properties of the streaming page handler -/

theorem emitAll_cons {σ : Type} (serialize : σ → Str) (template : Option Str)
    (context : Context σ) (st : PageState) (ev : StreamEvent) (evs : List StreamEvent) :
    emitAll serialize template context st (ev :: evs) =
      match emit serialize template context st ev with
      | (st, none) => emitAll serialize template context st evs
      | (st, some e) => (st, some e) := rfl

/-- Once the head has been written, data events are forwarded one call each
and `end` closes the response with the stored tail. -/
theorem emitAll_forward {σ : Type} (serialize : σ → Str) (template : Option Str)
    (context : Context σ) (sp : Split) (chunks : List Str) (st : PageState)
    (hs : st.splitedContent = some sp) (ho : st.oncePending = false) :
    emitAll serialize template context st (chunks.map StreamEvent.data ++ [StreamEvent.«end»]) =
      ({ st with res := { st.res with
          calls := st.res.calls ++ chunks.map ResCall.write ++ [ResCall.«end» sp.«end»] } },
        none) := by
  induction chunks generalizing st with
  | nil =>
    simp [emitAll, emit, hs, Response.«end»]
  | cons c cs ih =>
    rw [List.map_cons, List.cons_append, emitAll_cons]
    simp only [emit, ho, Bool.false_eq_true, if_false]
    rw [ih { res := st.res.write c, splitedContent := st.splitedContent, oncePending := false,
             renderTemplateCalls := st.renderTemplateCalls } hs rfl]
    simp [Response.write, List.append_assoc]

/-- C1: with a renderer and a template present and a context on which
`renderTemplate` returns `sp`, a stream that emits the chunks `c :: cs` and
then `end` leaves the response with exactly the calls `write(sp.start)`,
`write` of each chunk in emission order, `end(sp.end)`; `renderTemplate` has
been called once, no listener has thrown, the status code is 200 and the body
is `sp.start`, the chunks, `sp.end`. -/
theorem pageRoute_success {σ β ς : Type} (serialize : σ → Str) (serverInfo : Str)
    (app : UNVUE β ς) (context : Context σ) (r : Renderer β) (t : Str) (sp : Split)
    (c : Str) (cs : List Str)
    (hr : app.renderer = some r) (ht : app.template = some t)
    (hsp : renderTemplate serialize t context = .ok sp) :
    pageRoute serialize serverInfo app context
        ((c :: cs).map StreamEvent.data ++ [StreamEvent.«end»]) =
      ({ res := { statusCode := 200, statucCode := none,
                  headers := [("Content-Type".toList, "text/html".toList),
                    ("Server".toList, serverInfo)],
                  calls := [ResCall.write sp.start] ++ (c :: cs).map ResCall.write ++
                    [ResCall.«end» sp.«end»] },
         splitedContent := some sp, oncePending := false, renderTemplateCalls := 1 }, none) ∧
    (pageRoute serialize serverInfo app context
        ((c :: cs).map StreamEvent.data ++ [StreamEvent.«end»])).1.res.body =
      sp.start ++ (c :: cs).flatten ++ sp.«end» := by
  have key : pageRoute serialize serverInfo app context
      ((c :: cs).map StreamEvent.data ++ [StreamEvent.«end»]) =
      ({ res := { statusCode := 200, statucCode := none,
                  headers := [("Content-Type".toList, "text/html".toList),
                    ("Server".toList, serverInfo)],
                  calls := [ResCall.write sp.start] ++ (c :: cs).map ResCall.write ++
                    [ResCall.«end» sp.«end»] },
         splitedContent := some sp, oncePending := false, renderTemplateCalls := 1 }, none) := by
    simp only [pageRoute, hr]
    rw [List.map_cons, List.cons_append, emitAll_cons]
    simp only [emit, ht, hsp, if_true]
    rw [emitAll_forward serialize (some t) context sp cs _ rfl rfl]
    simp [Response.write, Response.setHeader, Response.fresh]
  refine ⟨key, ?_⟩
  rw [key]
  simp [Response.body, ResCall.text, List.map_map, Function.comp_def]

/-- C1, at the chunks `<div>`, `hi`, `</div>`. -/
theorem pageRoute_success_witness :
    demoApp.renderer = some (createRenderer 7 none) ∧ demoApp.template = some demoTemplate ∧
    renderTemplate id demoTemplate demoContext = .ok demoSplit ∧
    (pageRoute id "unvue".toList demoApp demoContext
        (["<div>".toList, "hi".toList, "</div>".toList].map StreamEvent.data ++
          [StreamEvent.«end»])).1.res.body =
      demoSplit.start ++ ["<div>".toList, "hi".toList, "</div>".toList].flatten ++
        demoSplit.«end» :=
  ⟨rfl, rfl, by rfl,
    (pageRoute_success id "unvue".toList demoApp demoContext (createRenderer 7 none) demoTemplate
      demoSplit "<div>".toList ["hi".toList, "</div>".toList] rfl rfl (by rfl)).2⟩

/-- C2: with a renderer present, a stream whose only event is `error(err)`
with `err.code` the number 404 leaves the response with status code 404 and
the single call `end('404 | Page Not Found')`: nothing has been written,
`renderTemplate` has not been called and `splitedContent` is unset. -/
theorem pageRoute_not_found_before_data {σ β ς : Type} (serialize : σ → Str) (serverInfo : Str)
    (app : UNVUE β ς) (context : Context σ) (r : Renderer β) (err : ErrorObject)
    (hr : app.renderer = some r) (hcode : err.code = some (ErrCode.number 404)) :
    pageRoute serialize serverInfo app context [StreamEvent.error (some err)] =
      ({ res := { statusCode := 404, statucCode := none,
                  headers := [("Content-Type".toList, "text/html".toList),
                    ("Server".toList, serverInfo)],
                  calls := [ResCall.«end» "404 | Page Not Found".toList] },
         splitedContent := none, oncePending := true, renderTemplateCalls := 0 }, none) := by
  obtain ⟨code⟩ := err
  simp only at hcode
  subst hcode
  simp [pageRoute, hr, emitAll, emit, errorHandler, Response.«end», Response.setHeader,
    Response.fresh]

/-- C2, at a concrete application and context. -/
theorem pageRoute_not_found_before_data_witness :
    demoApp.renderer = some (createRenderer 7 none) ∧
    ({ code := some (ErrCode.number 404) } : ErrorObject).code = some (ErrCode.number 404) ∧
    pageRoute id "unvue".toList demoApp demoContext
        [StreamEvent.error (some { code := some (ErrCode.number 404) })] =
      ({ res := { statusCode := 404, statucCode := none,
                  headers := [("Content-Type".toList, "text/html".toList),
                    ("Server".toList, "unvue".toList)],
                  calls := [ResCall.«end» "404 | Page Not Found".toList] },
         splitedContent := none, oncePending := true, renderTemplateCalls := 0 }, none) :=
  ⟨rfl, rfl,
    pageRoute_not_found_before_data id "unvue".toList demoApp demoContext (createRenderer 7 none)
      { code := some (ErrCode.number 404) } rfl rfl⟩

/-- C3, the code at the failing inputs: after a `null` error, an error without
`code` and an error with `code` 500, the response has been ended with
`500 | Internal Server Error` but its status code is still 200; the value 500
is in the property `statucCode`. -/
theorem pageRoute_generic_error_status {σ β ς : Type} (serialize : σ → Str) (serverInfo : Str)
    (stats : Stats ς) (template : Option Str) (r : Renderer β) (context : Context σ) :
    pageRoute serialize serverInfo
        ({ stats := stats, template := template, renderer := some r, readyEmitted := 0 } :
          UNVUE β ς)
        context [StreamEvent.error none] =
      ({ res := { statusCode := 200, statucCode := some 500,
                  headers := [("Content-Type".toList, "text/html".toList),
                    ("Server".toList, serverInfo)],
                  calls := [ResCall.«end» "500 | Internal Server Error".toList] },
         splitedContent := none, oncePending := true, renderTemplateCalls := 0 }, none) ∧
    pageRoute serialize serverInfo
        ({ stats := stats, template := template, renderer := some r, readyEmitted := 0 } :
          UNVUE β ς)
        context [StreamEvent.error (some { code := none })] =
      ({ res := { statusCode := 200, statucCode := some 500,
                  headers := [("Content-Type".toList, "text/html".toList),
                    ("Server".toList, serverInfo)],
                  calls := [ResCall.«end» "500 | Internal Server Error".toList] },
         splitedContent := none, oncePending := true, renderTemplateCalls := 0 }, none) ∧
    pageRoute serialize serverInfo
        ({ stats := stats, template := template, renderer := some r, readyEmitted := 0 } :
          UNVUE β ς)
        context [StreamEvent.error (some { code := some (ErrCode.number 500) })] =
      ({ res := { statusCode := 200, statucCode := some 500,
                  headers := [("Content-Type".toList, "text/html".toList),
                    ("Server".toList, serverInfo)],
                  calls := [ResCall.«end» "500 | Internal Server Error".toList] },
         splitedContent := none, oncePending := true, renderTemplateCalls := 0 }, none) := by
  refine ⟨?_, ?_, ?_⟩ <;>
    simp [pageRoute, emitAll, emit, errorHandler, Response.«end», Response.setHeader,
      Response.fresh]

/-- C4, the code at the failing input: when the stream emits `end` without a
`data` event before it, the `end` listener throws a `TypeError` and `res.end`
has not been called. -/
theorem pageRoute_end_without_data {σ β ς : Type} (serialize : σ → Str) (serverInfo : Str)
    (stats : Stats ς) (template : Option Str) (r : Renderer β) (context : Context σ) :
    pageRoute serialize serverInfo
        ({ stats := stats, template := template, renderer := some r, readyEmitted := 0 } :
          UNVUE β ς)
        context [StreamEvent.«end»] =
      ({ res := { statusCode := 200, statucCode := none,
                  headers := [("Content-Type".toList, "text/html".toList),
                    ("Server".toList, serverInfo)],
                  calls := [] },
         splitedContent := none, oncePending := true, renderTemplateCalls := 0 },
        some JSError.typeError) ∧
    (pageRoute serialize serverInfo
        ({ stats := stats, template := template, renderer := some r, readyEmitted := 0 } :
          UNVUE β ς)
        context [StreamEvent.«end»]).1.res.endCount = 0 := by
  constructor <;>
    simp [pageRoute, emitAll, emit, Response.setHeader, Response.fresh, Response.endCount]

theorem endCount_writes (calls : List ResCall) (chunks : List Str) :
    (calls ++ chunks.map ResCall.write).countP (fun c => match c with
      | .«end» _ => true
      | .write _ => false) =
    calls.countP (fun c => match c with
      | .«end» _ => true
      | .write _ => false) := by
  induction chunks generalizing calls with
  | nil => simp
  | cons c cs ih =>
    have := ih (calls ++ [ResCall.write c])
    simp only [List.append_assoc, List.singleton_append] at this
    rw [List.map_cons, this]
    simp [List.countP_append, List.countP_cons]

theorem errorHandler_endCount (res : Response) (err : Option ErrorObject) :
    (errorHandler res err).endCount = res.endCount + 1 := by
  unfold errorHandler
  split <;> simp [Response.endCount, Response.«end», List.countP_append, List.countP_cons]

/-- Once the `once` listener has run, data events are forwarded and an error
is answered by `errorHandler`. -/
theorem emitAll_forward_error {σ : Type} (serialize : σ → Str) (template : Option Str)
    (context : Context σ) (err : Option ErrorObject) (chunks : List Str) (st : PageState)
    (ho : st.oncePending = false) :
    emitAll serialize template context st (chunks.map StreamEvent.data ++ [StreamEvent.error err]) =
      ({ st with res := errorHandler { st.res with
          calls := st.res.calls ++ chunks.map ResCall.write } err }, none) := by
  induction chunks generalizing st with
  | nil =>
    simp [emitAll, emit]
  | cons c cs ih =>
    rw [List.map_cons, List.cons_append, emitAll_cons]
    simp only [emit, ho, Bool.false_eq_true, if_false]
    rw [ih { res := st.res.write c, splitedContent := st.splitedContent, oncePending := false,
             renderTemplateCalls := st.renderTemplateCalls } rfl]
    simp [Response.write, List.append_assoc]

/-- With a renderer and a template present and a context on which
`renderTemplate` returns, a stream that ends in `error`, after any number of
chunks, makes the handler call `res.end` exactly once without throwing. -/
theorem pageRoute_error_closes_once {σ β ς : Type} (serialize : σ → Str) (serverInfo : Str)
    (app : UNVUE β ς) (context : Context σ) (r : Renderer β) (t : Str) (sp : Split)
    (chunks : List Str) (err : Option ErrorObject)
    (hr : app.renderer = some r) (ht : app.template = some t)
    (hsp : renderTemplate serialize t context = .ok sp) :
    (pageRoute serialize serverInfo app context
      (chunks.map StreamEvent.data ++ [StreamEvent.error err])).2 = none ∧
    (pageRoute serialize serverInfo app context
      (chunks.map StreamEvent.data ++ [StreamEvent.error err])).1.res.endCount = 1 := by
  cases chunks with
  | nil =>
    simp only [pageRoute, hr, List.map_nil, List.nil_append, emitAll, emit]
    refine ⟨trivial, ?_⟩
    rw [errorHandler_endCount]
    rfl
  | cons c cs =>
    simp only [pageRoute, hr]
    rw [List.map_cons, List.cons_append, emitAll_cons]
    simp only [emit, ht, hsp, if_true]
    rw [emitAll_forward_error serialize (some t) context err cs _ rfl]
    refine ⟨rfl, ?_⟩
    simp only [errorHandler_endCount]
    simp only [Response.endCount]
    rw [endCount_writes]
    rfl

/-! ## Properties of `generate` -/

theorem handleUrl_of_slash (url : Str) (h : "/".toList <:+ url) :
    handleUrl url = url ++ "index".toList := by
  obtain ⟨u, rfl⟩ := h
  simp [handleUrl]

theorem handleUrl_of_no_slash (url : Str) (h : ¬ "/".toList <:+ url) :
    handleUrl url = url := by
  have hl : url.getLast? ≠ some '/' := by
    intro hl
    apply h
    rcases List.eq_nil_or_concat url with rfl | ⟨u, c, rfl⟩
    · simp at hl
    · simp at hl
      subst hl
      exact ⟨u, by simp⟩
  simp [handleUrl, hl]

theorem handleUrl_not_slash (url : Str) : ¬ "/".toList <:+ handleUrl url := by
  by_cases h : "/".toList <:+ url
  · rw [handleUrl_of_slash url h]
    rintro ⟨u, hu⟩
    have := congrArg List.getLast? hu
    simp at this
  · rw [handleUrl_of_no_slash url h]
    exact h

/-- C9: for a route whose page renders (the render engine returns the body
`main` and a context with `meta` populated), `g` passes to `fs.writeFile` the
file `path.resolve(cwd, 'dist' + handleUrl(url) + '.html')` and the text
`start + main + end` of the split that `renderTemplate` returns on the
template and that context; `handleUrl(url)` is `url + 'index'` if `url` ends
with `/` and `url` otherwise, and never ends with `/`; the paths of `/`,
`/about` and `/about/` are `dist/index.html`, `dist/about.html` and
`dist/about/index.html`. -/
theorem generate_destination {σ : Type} (resolve : Str → Str → Str) (serialize : σ → Str)
    (renderToString : Str → Except JSError (Str × Context σ)) (cwd template url main : Str)
    (context : Context σ) (m : MetaInfo)
    (hrender : renderToString url = .ok (main, context)) (hm : context.meta = some m) :
    (∃ sp, renderTemplate serialize template context = .ok sp ∧
      generatePage resolve serialize renderToString cwd template url =
        .ok (resolve cwd ("dist".toList ++ handleUrl url ++ ".html".toList),
          sp.start ++ main ++ sp.«end»)) ∧
    ("/".toList <:+ url → handleUrl url = url ++ "index".toList) ∧
    (¬ "/".toList <:+ url → handleUrl url = url) ∧
    ¬ "/".toList <:+ handleUrl url ∧
    pagePath "/".toList = "dist/index.html".toList ∧
    pagePath "/about".toList = "dist/about.html".toList ∧
    pagePath "/about/".toList = "dist/about/index.html".toList := by
  refine ⟨?_, handleUrl_of_slash url, handleUrl_of_no_slash url, handleUrl_not_slash url,
    by decide, by decide, by decide⟩
  have hex : ∃ sp, renderTemplate serialize template context = .ok sp := by
    simp [renderTemplate, hm]
  obtain ⟨sp, hsp⟩ := hex
  refine ⟨sp, hsp, ?_⟩
  simp [generatePage, hrender, hsp, pagePath]

/-- C9, at the route `/about/`: the page written to `/srv/dist/about/index.html`
is the head of the template, the rendered body and the tail. -/
theorem generate_destination_witness :
    (fun url => (.ok ("<p>hi</p>".toList, { demoContext with url := url }) :
      Except JSError (Str × Context Str))) "/about/".toList =
        .ok ("<p>hi</p>".toList, { demoContext with url := "/about/".toList }) ∧
    ({ demoContext with url := "/about/".toList } : Context Str).meta = some demoMeta ∧
    generatePage (fun cwd p => cwd ++ "/".toList ++ p) id
        (fun url => .ok ("<p>hi</p>".toList, { demoContext with url := url }))
        "/srv".toList demoTemplate "/about/".toList =
      .ok ("/srv/dist/about/index.html".toList,
        demoSplit.start ++ "<p>hi</p>".toList ++ demoSplit.«end») := by
  refine ⟨rfl, rfl, ?_⟩
  obtain ⟨sp, hsp, hgen⟩ :=
    (generate_destination (fun cwd p => cwd ++ "/".toList ++ p) id
      (fun url => .ok ("<p>hi</p>".toList, { demoContext with url := url }))
      "/srv".toList demoTemplate "/about/".toList "<p>hi</p>".toList
      { demoContext with url := "/about/".toList } demoMeta rfl rfl).1
  have h2 : renderTemplate id demoTemplate { demoContext with url := "/about/".toList } =
      .ok demoSplit := by rfl
  rw [h2] at hsp
  have hs : sp = demoSplit := (Except.ok.inj hsp).symm
  rw [hgen, hs]
  rfl

/-! ## Properties of `handleCompiled` -/

theorem compileAll_cons {β ς : Type} (app : UNVUE β ς) (ev : CompileType × Payload β ς)
    (evs : List (CompileType × Payload β ς)) :
    compileAll app (ev :: evs) = compileAll (handleCompiled ev.1 app ev.2) evs := rfl

theorem handleCompiled_renderer_some {β ς : Type} (type : CompileType) (app : UNVUE β ς)
    (payload : Payload β ς) (r : Renderer β) (h : app.renderer = some r) :
    (handleCompiled type app payload).renderer = some r := by
  simp [handleCompiled, h]

/-- After a first event has stored a renderer, later events keep it and store
their own template. -/
theorem compileAll_from_ready {β ς : Type} (evs : List (CompileType × Payload β ς))
    (app : UNVUE β ς) (ev : CompileType × Payload β ς) (r : Renderer β)
    (h : (handleCompiled ev.1 app ev.2).renderer = some r) :
    (compileAll app (ev :: evs)).renderer = some r ∧
    (compileAll app (ev :: evs)).template =
      some ((ev :: evs).getLast (List.cons_ne_nil ev evs)).2.template := by
  induction evs generalizing app ev with
  | nil =>
    refine ⟨h, ?_⟩
    simp [compileAll, handleCompiled]
    split <;> rfl
  | cons e es ih =>
    rw [compileAll_cons]
    have h2 := handleCompiled_renderer_some e.1 (handleCompiled ev.1 app ev.2) e.2 r h
    have := ih (handleCompiled ev.1 app ev.2) e h2
    rw [List.getLast_cons (List.cons_ne_nil e es)]
    exact this

/-- C10, as stated, fails: after a compile event with bundle 1 and one with
bundle 2 the stored template is the second one and the stored renderer is
still the one created from bundle 1, not the one created from bundle 2. -/
theorem compileAll_renderer_not_latest :
    (compileAll (UNVUE.absent : UNVUE Nat Unit)
      [(CompileType.server, { stats := (), template := "a".toList, bundle := 1 }),
       (CompileType.client, { stats := (), template := "b".toList, bundle := 2 })]).template =
      some "b".toList ∧
    (compileAll (UNVUE.absent : UNVUE Nat Unit)
      [(CompileType.server, { stats := (), template := "a".toList, bundle := 1 }),
       (CompileType.client, { stats := (), template := "b".toList, bundle := 2 })]).renderer =
      some (createRenderer 1 none) ∧
    (compileAll (UNVUE.absent : UNVUE Nat Unit)
      [(CompileType.server, { stats := (), template := "a".toList, bundle := 1 }),
       (CompileType.client, { stats := (), template := "b".toList, bundle := 2 })]).renderer ≠
      some (createRenderer 2 none) := by
  decide

/-- C10, amended: starting from the absent state, after a non-empty sequence
of compile events the stored template is the last payload's template and the
stored renderer is the one created from the first payload's bundle. -/
theorem compileAll_keeps_first_renderer {β ς : Type} (first : CompileType × Payload β ς)
    (rest : List (CompileType × Payload β ς)) :
    (compileAll UNVUE.absent (first :: rest)).template =
      some ((first :: rest).getLast (List.cons_ne_nil first rest)).2.template ∧
    (compileAll UNVUE.absent (first :: rest)).renderer =
      some (createRenderer first.2.bundle none) := by
  have h : (handleCompiled first.1 (UNVUE.absent : UNVUE β ς) first.2).renderer =
      some (createRenderer first.2.bundle none) := by
    simp [handleCompiled, UNVUE.absent]
  exact ⟨(compileAll_from_ready rest _ first _ h).2, (compileAll_from_ready rest _ first _ h).1⟩

end Unvue
